import Mathlib

/-!
Shallow embedding of the `inventory_parser` package
(`normalize.py`, `parser.py`, `models.py`, `reconcile.py`) and proofs about it.

Modelling conventions:
* Python `str` is modelled as Lean `String`, restricted to ASCII text: `str.strip()`
  becomes `pyStrip` (dropping the ASCII whitespace characters), `str.upper()` /
  `str.lower()` / `str.casefold()` become `pyUpper` / `pyLower` (ASCII case maps).
* Python `int` is Lean `Int`; `decimal.Decimal` literals are modelled by `readDecimal`,
  which reads a finite decimal numeral `sign? (digits [. digits?] | . digits) ([eE] sign? digits)?`
  into a pair `(mantissa, scale)` with value `mantissa / 10 ^ scale`.  Special values
  (`NaN`, `Infinity`) and underscore digit separators are not modelled.
* Python `dict[str, int]` accumulators (`defaultdict(int)`) are modelled as ordered
  association lists (`Totals`), looked up with `lookupTotal` / `getTotal`.
* `csv.DictReader` rows are modelled as the list of cell strings of one data line,
  turned into a header-keyed association list by `dictRead` (with `none` for short rows,
  matching `restval=None`); an extra-cells row is recognized by its length, matching
  the `None` restkey.  `DictReader` itself never yields a fully empty physical line.
* Raising `ValueError` is modelled with `Except String`.
-/

/-- ASCII whitespace recognized by Python `str.strip()` and by `\s` on ASCII text. -/
def isPySpace (c : Char) : Bool :=
  c = ' ' || c = '\t' || c = '\n' || c = '\r' || c = '\x0b' || c = '\x0c'

/-- Python `str.strip()` on ASCII text. -/
def pyStrip (s : String) : String :=
  String.mk (((s.data.dropWhile isPySpace).reverse.dropWhile isPySpace).reverse)

/-- Python `str.lower()` / `str.casefold()` on ASCII text. -/
def pyLower (s : String) : String :=
  String.mk (s.data.map Char.toLower)

/-- Python `str.upper()` on ASCII text. -/
def pyUpper (s : String) : String :=
  String.mk (s.data.map Char.toUpper)

/-- `c in s` for a single character. -/
def containsChar (s : String) (c : Char) : Bool :=
  s.data.contains c

/-- Value of a list of decimal digit characters, most significant first. -/
def digitsToNat (ds : List Char) : Nat :=
  ds.foldl (fun acc c => acc * 10 + (c.toNat - 48)) 0

/-- Decimal digit characters of `n`, most significant first (fuel-based helper). -/
def natToDecAux : Nat → Nat → List Char
  | 0, _ => []
  | fuel + 1, n =>
    if n = 0 then [] else natToDecAux fuel (n / 10) ++ [Char.ofNat (48 + n % 10)]

/-- Python `str(n)` for a non-negative integer. -/
def natToDec (n : Nat) : String :=
  if n = 0 then "0" else String.mk (natToDecAux n n)

/-- Python `str(i)` for an integer. -/
def intToDec (i : Int) : String :=
  if i < 0 then "-" ++ natToDec i.natAbs else natToDec i.natAbs

/-- Lexicographic (code-point) comparison of character lists, as Python compares `str`. -/
def charListLe : List Char → List Char → Bool
  | [], _ => true
  | _ :: _, [] => false
  | a :: as, b :: bs => if a < b then true else if b < a then false else charListLe as bs

/-- Python `s1 <= s2` on ASCII strings. -/
def strLeB (a b : String) : Bool :=
  charListLe a.data b.data

/-- Insert into a `strLeB`-sorted list. -/
def insertSorted (x : String) : List String → List String
  | [] => [x]
  | y :: ys => if strLeB x y then x :: y :: ys else y :: insertSorted x ys

/-- Python `sorted` on a list of strings (code-point order). -/
def sortStrings (l : List String) : List String :=
  l.foldr insertSorted []

/-- Python `", ".join(l)`. -/
def joinComma : List String → String
  | [] => ""
  | [s] => s
  | s :: rest => s ++ ", " ++ joinComma rest

/-- Split a character list at a separator character (model of `str.split(sep)`). -/
def splitCharAux (sep : Char) : List Char → List Char → List (List Char)
  | [], acc => [acc.reverse]
  | c :: rest, acc =>
    if c = sep then acc.reverse :: splitCharAux sep rest []
    else splitCharAux sep rest (c :: acc)

/-! ## models.py -/

/-- `models.DataIssue`: structured data-quality issue emitted during parsing. -/
structure DataIssue where
  code : String
  message : String
  field : Option String := none
deriving DecidableEq

/-- A calendar date as produced by `datetime.date`. -/
structure InvDate where
  year : Nat
  month : Nat
  day : Nat
deriving DecidableEq

/-- The `raw` audit mapping of `UnifiedInventoryRow` (five fixed canonical field names). -/
structure RawFields where
  sku : Option String
  name : Option String
  quantity : Option String
  location : Option String
  counted_on : Option String
deriving DecidableEq

/-- `models.UnifiedInventoryRow`: canonical representation of one inventory row. -/
structure UnifiedInventoryRow where
  source_file : String
  source_row : Nat
  source_schema : String
  sku : Option String
  name : Option String
  quantity : Option Int
  location : Option String
  counted_on : Option InvDate
  raw : RawFields
  issues : List DataIssue
deriving DecidableEq

/-- `models.ParseResult`: parsed output for one snapshot. -/
structure ParseResult where
  file_path : String
  schema_name : String
  rows : List UnifiedInventoryRow
  file_issues : List DataIssue
deriving DecidableEq

/-! ## normalize.py -/

/-- `normalize.normalize_text`: trim text, collapse empty values to `None`, emit issues. -/
def normalize_text (value : Option String) (fieldName : String) :
    Option String × List DataIssue :=
  match value with
  | none =>
    (none, [{ code := "missing_value", message := fieldName ++ " is missing",
              field := some fieldName }])
  | some v =>
    let stripped := pyStrip v
    if stripped = "" then
      (none, [{ code := "missing_value", message := fieldName ++ " is empty",
                field := some fieldName }])
    else if stripped ≠ v then
      (some stripped,
       [{ code := "whitespace_trimmed",
          message := fieldName ++ " had leading/trailing whitespace",
          field := some fieldName }])
    else
      (some stripped, [])

/-- `normalize._SKU_STANDARD_RE`: the regex `^SKU-\d{3}$` (ASCII digits). -/
def _sku_standard_match (s : String) : Bool :=
  match s.data with
  | ['S', 'K', 'U', '-', a, b, c] => a.isDigit && b.isDigit && c.isDigit
  | _ => false

/-- `normalize._SKU_NO_HYPHEN_RE`: the regex `^SKU\d{3}$` (ASCII digits). -/
def _sku_no_hyphen_match (s : String) : Bool :=
  match s.data with
  | ['S', 'K', 'U', a, b, c] => a.isDigit && b.isDigit && c.isDigit
  | _ => false

/-- `re.sub(r"\s+", "", cleaned.upper())`: uppercase and drop all whitespace. -/
def skuCandidate (cleaned : String) : String :=
  String.mk ((pyUpper cleaned).data.filter (fun c => !isPySpace c))

/-- The `sku_format_normalized` issue for a casing/spacing fix. -/
def skuCasingIssue : DataIssue :=
  { code := "sku_format_normalized", message := "SKU casing/spacing was normalized",
    field := some "sku" }

/-- The `sku_format_normalized` issue for a missing hyphen. -/
def skuHyphenIssue : DataIssue :=
  { code := "sku_format_normalized", message := "SKU missing hyphen was normalized",
    field := some "sku" }

/-- The `invalid_sku_format` issue. -/
def invalidSkuIssue (cleaned : String) : DataIssue :=
  { code := "invalid_sku_format", message := "SKU has unexpected format: " ++ cleaned,
    field := some "sku" }

/-- `normalize.normalize_sku`: normalize SKU formatting to canonical `SKU-XXX` when possible. -/
def normalize_sku (value : Option String) : Option String × List DataIssue :=
  match normalize_text value "sku" with
  | (none, issues) => (none, issues)
  | (some cleaned, issues) =>
    let candidate := skuCandidate cleaned
    if _sku_standard_match candidate then
      if candidate ≠ cleaned then (some candidate, issues ++ [skuCasingIssue])
      else (some candidate, issues)
    else if _sku_no_hyphen_match candidate then
      -- `f"SKU-{candidate[-3:]}"`: candidate has length 6 here, so `[-3:]` is `drop 3`.
      (some (String.mk (['S', 'K', 'U', '-'] ++ candidate.data.drop 3)),
       issues ++ [skuHyphenIssue])
    else
      (some candidate, issues ++ [invalidSkuIssue cleaned])

/-- Read an optional sign, returning the sign and the rest. -/
def readSign : List Char → Int × List Char
  | '+' :: rest => (1, rest)
  | '-' :: rest => (-1, rest)
  | cs => (1, cs)

/-- Read the optional exponent part of a decimal numeral; returns the exponent if the
rest of the input is exactly an (optional) exponent clause. -/
def readExpPart : List Char → Option Int
  | [] => some 0
  | e :: rest =>
    if e = 'e' || e = 'E' then
      let (esign, rest2) := readSign rest
      let edigits := rest2.takeWhile Char.isDigit
      let rest3 := rest2.dropWhile Char.isDigit
      if edigits = [] || rest3 ≠ [] then none
      else some (esign * (digitsToNat edigits : Int))
    else none

/-- `decimal.Decimal(cleaned)` on a finite decimal numeral: returns `(mantissa, scale)`
with value `mantissa / 10 ^ scale`, or `none` when the text is not numeric
(Python raises `InvalidOperation`).  `NaN`/`Infinity` and `_` separators are not modelled. -/
def readDecimal (s : String) : Option (Int × Int) :=
  let (sign, cs) := readSign s.data
  let ipart := cs.takeWhile Char.isDigit
  let cs1 := cs.dropWhile Char.isDigit
  match cs1 with
  | '.' :: cs2 =>
    let fpart := cs2.takeWhile Char.isDigit
    let cs3 := cs2.dropWhile Char.isDigit
    if ipart = [] && fpart = [] then none
    else
      match readExpPart cs3 with
      | none => none
      | some e => some (sign * (digitsToNat (ipart ++ fpart) : Int), (fpart.length : Int) - e)
  | _ =>
    if ipart = [] then none
    else
      match readExpPart cs1 with
      | none => none
      | some e => some (sign * (digitsToNat ipart : Int), -e)

/-- `parsed == parsed.to_integral_value()` for a finite decimal `(m, scale)`. -/
def isIntegralDec (m scale : Int) : Bool :=
  scale ≤ 0 || m % (10 ^ scale.toNat : Int) == 0

/-- `int(parsed)` for a finite decimal `(m, scale)`; exact on integral values. -/
def decToInt (m scale : Int) : Int :=
  if scale ≤ 0 then m * (10 ^ (-scale).toNat : Int) else m / (10 ^ scale.toNat : Int)

/-- The `invalid_quantity` issue. -/
def invalidQuantityIssue (cleaned : String) : DataIssue :=
  { code := "invalid_quantity", message := "Quantity is not numeric: " ++ cleaned,
    field := some "quantity" }

/-- The `non_integral_quantity` issue. -/
def nonIntegralQuantityIssue (cleaned : String) : DataIssue :=
  { code := "non_integral_quantity", message := "Quantity is not an integer: " ++ cleaned,
    field := some "quantity" }

/-- The `decimal_quantity_format` issue. -/
def decimalQuantityFormatIssue (cleaned : String) : DataIssue :=
  { code := "decimal_quantity_format",
    message := "Quantity uses decimal formatting: " ++ cleaned,
    field := some "quantity" }

/-- The `negative_quantity` issue. -/
def negativeQuantityIssue (quantity : Int) : DataIssue :=
  { code := "negative_quantity", message := "Quantity is negative: " ++ intToDec quantity,
    field := some "quantity" }

/-- `normalize.parse_quantity`: parse quantity as int, with issues for unusual formats. -/
def parse_quantity (value : Option String) : Option Int × List DataIssue :=
  match normalize_text value "quantity" with
  | (none, issues) => (none, issues)
  | (some cleaned, issues) =>
    match readDecimal cleaned with
    | none => (none, issues ++ [invalidQuantityIssue cleaned])
    | some (m, scale) =>
      if !isIntegralDec m scale then
        (none, issues ++ [nonIntegralQuantityIssue cleaned])
      else
        let issues1 := if containsChar cleaned '.' then issues ++ [decimalQuantityFormatIssue cleaned] else issues
        let quantity := decToInt m scale
        if quantity < 0 then (some quantity, issues1 ++ [negativeQuantityIssue quantity])
        else (some quantity, issues1)

/-- Gregorian leap year, as `datetime` uses. -/
def isLeapYear (y : Nat) : Bool :=
  (y % 4 = 0 && y % 100 ≠ 0) || y % 400 = 0

/-- Days in a month, as `datetime` uses. -/
def daysInMonth (y m : Nat) : Nat :=
  if m = 2 then (if isLeapYear y then 29 else 28)
  else if m = 4 || m = 6 || m = 9 || m = 11 then 30
  else 31

/-- `datetime.date(y, m, d)` construction: valid dates only (year 1..9999). -/
def mkValidDate (y m d : Nat) : Option InvDate :=
  if 1 ≤ y && y ≤ 9999 && 1 ≤ m && m ≤ 12 && 1 ≤ d && d ≤ daysInMonth y m then
    some { year := y, month := m, day := d }
  else none

/-- One numeric date component as `strptime` matches it: non-empty, all digits,
at most `width` characters. -/
def dateComponentOk (width : Nat) (cs : List Char) : Bool :=
  cs ≠ [] && cs.all Char.isDigit && cs.length ≤ width

/-- Combine three `strptime`-matched components (year, month, day) into a date. -/
def tryDateParts (y m d : List Char) : Option InvDate :=
  if dateComponentOk 4 y && dateComponentOk 2 m && dateComponentOk 2 d then
    mkValidDate (digitsToNat y) (digitsToNat m) (digitsToNat d)
  else none

/-- `datetime.strptime(cleaned, "%Y-%m-%d").date()` (returns `none` on `ValueError`). -/
def tryIsoDate (s : String) : Option InvDate :=
  match splitCharAux '-' s.data [] with
  | [y, m, d] => tryDateParts y m d
  | _ => none

/-- `datetime.strptime(cleaned, "%m/%d/%Y").date()` (returns `none` on `ValueError`). -/
def tryLegacyDate (s : String) : Option InvDate :=
  match splitCharAux '/' s.data [] with
  | [m, d, y] => tryDateParts y m d
  | _ => none

/-- `normalize.parse_inventory_date`: ISO first, then legacy `MM/DD/YYYY` (flagged). -/
def parse_inventory_date (value : Option String) : Option InvDate × List DataIssue :=
  match normalize_text value "counted_on" with
  | (none, issues) => (none, issues)
  | (some cleaned, issues) =>
    match tryIsoDate cleaned with
    | some parsed => (some parsed, issues)
    | none =>
      match tryLegacyDate cleaned with
      | some parsed =>
        (some parsed,
         issues ++ [{ code := "non_iso_date_format",
                      message := "Date is not ISO-8601 format: " ++ cleaned,
                      field := some "counted_on" }])
      | none =>
        (none,
         issues ++ [{ code := "invalid_date", message := "Unable to parse date: " ++ cleaned,
                      field := some "counted_on" }])

/-! ## parser.py -/

/-- The fixed per-schema mapping from canonical field name to actual header name
(`SchemaDefinition.column_map`, a dict with exactly these five keys). -/
structure ColumnMap where
  sku : String
  name : String
  quantity : String
  location : String
  counted_on : String
deriving DecidableEq

/-- `parser.SchemaDefinition`. -/
structure SchemaDefinition where
  name : String
  fields : List String
  column_map : ColumnMap
deriving DecidableEq

/-- The `snapshot_v1` entry of `parser._SCHEMAS`. -/
def schema_v1 : SchemaDefinition :=
  { name := "snapshot_v1",
    fields := ["sku", "name", "quantity", "location", "last_counted"],
    column_map := { sku := "sku", name := "name", quantity := "quantity",
                    location := "location", counted_on := "last_counted" } }

/-- The `snapshot_v2` entry of `parser._SCHEMAS`. -/
def schema_v2 : SchemaDefinition :=
  { name := "snapshot_v2",
    fields := ["sku", "product_name", "qty", "warehouse", "updated_at"],
    column_map := { sku := "sku", name := "product_name", quantity := "qty",
                    location := "warehouse", counted_on := "updated_at" } }

/-- `parser._SCHEMAS`, in registration order. -/
def _SCHEMAS : List SchemaDefinition := [schema_v1, schema_v2]

/-- `parser._normalize_header`: trim and lowercase one header name. -/
def _normalize_header (header : String) : String :=
  pyLower (pyStrip header)

/-- Finite-set equality of two header lists (Python `frozenset` comparison). -/
def setEqStr (a b : List String) : Bool :=
  a.all (fun x => b.contains x) && b.all (fun x => a.contains x)

/-- `parser.detect_schema`: exact set match of normalized headers against `_SCHEMAS`;
`none` models a `None` argument (`reader.fieldnames` may be `None`). -/
def detect_schema (headers : Option (List String)) : Except String SchemaDefinition :=
  match headers with
  | none => .error "CSV file has no header row"
  | some hs =>
    if hs.isEmpty then .error "CSV file has no header row"
    else
      let normalized_fields := (hs.map _normalize_header).dedup
      match _SCHEMAS.find? (fun schema => setEqStr normalized_fields schema.fields) with
      | some schema => .ok schema
      | none =>
        .error ("Unrecognized CSV schema fields: "
                ++ joinComma (sortStrings normalized_fields))

/-- `raw_row.get(header)` on a `DictReader` row (absent key and `None` value coincide). -/
def dget (raw_row : List (String × Option String)) (header : String) : Option String :=
  match raw_row.find? (fun p => p.1 == header) with
  | some p => p.2
  | none => none

/-- The header-keyed mapping `csv.DictReader` builds for one data line: the i-th declared
header maps to the i-th cell, `none` (`restval`) when the line is short.  Duplicate
headers are not distinguished (registered schemas have distinct headers). -/
def dictRead (headers : List String) (cells : List String) : List (String × Option String) :=
  headers.enum.map (fun p => (p.2, cells.get? p.1))

/-- `parser._is_blank_row`: true when all declared columns are absent or blank. -/
def _is_blank_row (raw_row : List (String × Option String)) (headers : List String) : Bool :=
  headers.all (fun header =>
    match dget raw_row header with
    | none => true
    | some value => pyStrip value = "")

/-- `parser._to_row`: convert one raw row into a canonical row with issue metadata. -/
def _to_row (raw_row : List (String × Option String)) (line_number : Nat)
    (source_file : String) (schema : SchemaDefinition) : UnifiedInventoryRow :=
  let sku_raw := dget raw_row schema.column_map.sku
  let name_raw := dget raw_row schema.column_map.name
  let quantity_raw := dget raw_row schema.column_map.quantity
  let location_raw := dget raw_row schema.column_map.location
  let counted_on_raw := dget raw_row schema.column_map.counted_on
  let skuR := normalize_sku sku_raw
  let nameR := normalize_text name_raw "name"
  let quantityR := parse_quantity quantity_raw
  let locationR := normalize_text location_raw "location"
  let dateR := parse_inventory_date counted_on_raw
  { source_file := source_file, source_row := line_number, source_schema := schema.name,
    sku := skuR.1, name := nameR.1, quantity := quantityR.1, location := locationR.1,
    counted_on := dateR.1,
    raw := { sku := sku_raw, name := name_raw, quantity := quantity_raw,
             location := location_raw, counted_on := counted_on_raw },
    issues := skuR.2 ++ nameR.2 ++ quantityR.2 ++ locationR.2 ++ dateR.2 }

/-- The `row_has_extra_columns` file-level issue for one line. -/
def extraColumnsIssue (line_number : Nat) : DataIssue :=
  { code := "row_has_extra_columns",
    message := "Row " ++ natToDec line_number ++ " has more columns than the header" }

/-- The `blank_row_skipped` file-level issue for one line. -/
def blankRowIssue (line_number : Nat) : DataIssue :=
  { code := "blank_row_skipped",
    message := "Row " ++ natToDec line_number ++ " is blank and was skipped" }

/-- The per-row loop of `parser.parse_snapshot` over the data lines a `DictReader`
yields (each a list of cells; `DictReader` skips fully empty physical lines itself),
numbering lines from `line_number`.  Returns the parsed rows and the file-level issues. -/
def _parse_data_rows (schema : SchemaDefinition) (headers : List String)
    (source_file : String) : Nat → List (List String) →
    List UnifiedInventoryRow × List DataIssue
  | _, [] => ([], [])
  | line_number, cells :: rest =>
    let raw_row := dictRead headers cells
    -- `None in raw_row` holds exactly when the line has more cells than headers.
    let extra_issues :=
      if headers.length < cells.length then [extraColumnsIssue line_number] else []
    let tail := _parse_data_rows schema headers source_file (line_number + 1) rest
    if _is_blank_row raw_row headers then
      (tail.1, extra_issues ++ blankRowIssue line_number :: tail.2)
    else
      (_to_row raw_row line_number source_file schema :: tail.1, extra_issues ++ tail.2)

/-- `parser.parse_snapshot`, over the decoded header line and data lines of one file
(file opening and CSV splitting happen outside the model). -/
def parse_snapshot (csv_path : String) (headers : List String)
    (dataRows : List (List String)) : Except String ParseResult := do
  let schema ← detect_schema (some headers)
  let parsed := _parse_data_rows schema headers csv_path 2 dataRows
  pure { file_path := csv_path, schema_name := schema.name,
         rows := parsed.1, file_issues := parsed.2 }

/-! ## reconcile.py -/

/-- `reconcile.KeyFn`. -/
abbrev KeyFn := UnifiedInventoryRow → Option String

/-- `reconcile.key_by_sku`. -/
def key_by_sku (row : UnifiedInventoryRow) : Option String :=
  row.sku

/-- `reconcile.key_by_name`. -/
def key_by_name (row : UnifiedInventoryRow) : Option String :=
  match row.name with
  | none => none
  | some n =>
    let normalized := pyLower (pyStrip n)
    if normalized = "" then none else some normalized

/-- `reconcile._normalize_location`. -/
def _normalize_location (location : Option String) : Option String :=
  match location with
  | none => none
  | some l =>
    let normalized := pyLower (pyStrip l)
    if normalized = "" then none else some normalized

/-- `reconcile.key_by_sku_warehouse`. -/
def key_by_sku_warehouse (row : UnifiedInventoryRow) : Option String :=
  match row.sku, _normalize_location row.location with
  | some sku, some location => some (sku ++ "|" ++ location)
  | _, _ => none

/-- `reconcile.key_by_name_warehouse`. -/
def key_by_name_warehouse (row : UnifiedInventoryRow) : Option String :=
  match key_by_name row, _normalize_location row.location with
  | some name, some location => some (name ++ "|" ++ location)
  | _, _ => none

/-- The `key` argument of the reconciliation entry points: a named strategy
(`ReconciliationKey`) or a caller-supplied callable. -/
inductive KeySpec where
  | named (key : String)
  | custom (fn : KeyFn)

/-- `reconcile.resolve_key_fn`: resolve a strategy name or pass through a callable. -/
def resolve_key_fn : KeySpec → Except String KeyFn
  | .custom f => .ok f
  | .named key =>
    if key = "sku" then .ok key_by_sku
    else if key = "name" then .ok key_by_name
    else if key = "sku_warehouse" then .ok key_by_sku_warehouse
    else if key = "name_warehouse" then .ok key_by_name_warehouse
    else .error ("Unsupported reconciliation key: " ++ key)

/-- `reconcile.DeltaByKey` (`dict[str, int]`), as an ordered association list. -/
abbrev Totals := List (String × Int)

/-- `0 if row.quantity is None else row.quantity`. -/
def qtyOrZero (row : UnifiedInventoryRow) : Int :=
  row.quantity.getD 0

/-- `totals[key] += q` on a `defaultdict(int)`. -/
def bumpTotals : Totals → String → Int → Totals
  | [], k, q => [(k, q)]
  | (k', q') :: rest, k, q =>
    if k' = k then (k', q' + q) :: rest else (k', q') :: bumpTotals rest k q

/-- `totals.get(key)`: `none` when the key is absent. -/
def lookupTotal (t : Totals) (k : String) : Option Int :=
  match t.find? (fun p => p.1 == k) with
  | some p => some p.2
  | none => none

/-- `totals[key]` on a key known to be present (defaults to 0 off that domain). -/
def getTotal (t : Totals) (k : String) : Int :=
  (lookupTotal t k).getD 0

/-- One iteration of the `aggregate_quantities` loop: skip a `None` or empty key
(`if not key: continue`), otherwise add the row's quantity. -/
def aggStep (key_fn : KeyFn) (totals : Totals) (row : UnifiedInventoryRow) : Totals :=
  match key_fn row with
  | none => totals
  | some k => if k = "" then totals else bumpTotals totals k (qtyOrZero row)

/-- `reconcile.aggregate_quantities`: aggregate row quantities by key for one snapshot. -/
def aggregate_quantities (rows : List UnifiedInventoryRow) (key_fn : KeyFn) : Totals :=
  rows.foldl (aggStep key_fn) []

/-- `reconcile.ChangedItem`. -/
structure ChangedItem where
  key : String
  snapshot_1_quantity : Int
  snapshot_2_quantity : Int
  delta : Int
deriving DecidableEq

/-- `reconcile.ReconciliationSummary`. -/
structure ReconciliationSummary where
  in_both_unchanged : List String
  in_both_changed : List ChangedItem
  only_in_snapshot_1 : List String
  only_in_snapshot_2 : List String
  delta_by_key : Totals
deriving DecidableEq

/-- `reconcile.DuplicateMergeInfo`. -/
structure DuplicateMergeInfo where
  key : String
  row_count : Int
  merged_quantity : Int
deriving DecidableEq

/-- The body of `reconcile.reconcile_rows` after the key function is resolved.
Python `set(totals)` becomes `(totals.map Prod.fst).dedup`; the `sorted(...)`
comprehensions over sets become `sortStrings` of `filter`s. -/
def reconcileWith (snapshot_1_rows snapshot_2_rows : List UnifiedInventoryRow)
    (key_fn : KeyFn) : ReconciliationSummary :=
  let snapshot_1_totals := aggregate_quantities snapshot_1_rows key_fn
  let snapshot_2_totals := aggregate_quantities snapshot_2_rows key_fn
  let snapshot_1_keys := (snapshot_1_totals.map Prod.fst).dedup
  let snapshot_2_keys := (snapshot_2_totals.map Prod.fst).dedup
  let shared_keys := snapshot_1_keys.filter (fun k => snapshot_2_keys.contains k)
  let unchanged_keys := sortStrings (shared_keys.filter
    (fun k => getTotal snapshot_1_totals k == getTotal snapshot_2_totals k))
  let changed_keys := sortStrings (shared_keys.filter
    (fun k => getTotal snapshot_1_totals k != getTotal snapshot_2_totals k))
  let in_both_changed := changed_keys.map (fun item_key =>
    { key := item_key,
      snapshot_1_quantity := getTotal snapshot_1_totals item_key,
      snapshot_2_quantity := getTotal snapshot_2_totals item_key,
      delta := getTotal snapshot_2_totals item_key - getTotal snapshot_1_totals item_key
      : ChangedItem })
  { in_both_unchanged := unchanged_keys,
    in_both_changed := in_both_changed,
    only_in_snapshot_1 := sortStrings (snapshot_1_keys.filter
      (fun k => !snapshot_2_keys.contains k)),
    only_in_snapshot_2 := sortStrings (snapshot_2_keys.filter
      (fun k => !snapshot_1_keys.contains k)),
    delta_by_key := in_both_changed.map (fun item => (item.key, item.delta)) }

/-- `reconcile.reconcile_rows`: resolve the key strategy, then reconcile. -/
def reconcile_rows (snapshot_1_rows snapshot_2_rows : List UnifiedInventoryRow)
    (key : KeySpec) : Except String ReconciliationSummary :=
  (resolve_key_fn key).map (reconcileWith snapshot_1_rows snapshot_2_rows)

/-- One iteration of the `detect_merged_duplicates` loop over `(row_counts, merged_totals)`. -/
def dmStep (key_fn : KeyFn) (acc : Totals × Totals) (row : UnifiedInventoryRow) :
    Totals × Totals :=
  match key_fn row with
  | none => acc
  | some k =>
    if k = "" then acc
    else (bumpTotals acc.1 k 1, bumpTotals acc.2 k (qtyOrZero row))

/-- The body of `reconcile.detect_merged_duplicates` after the key function is resolved:
`for item_key in sorted(row_counts): if row_counts[item_key] <= 1: continue; append(...)`. -/
def dmWith (rows : List UnifiedInventoryRow) (key_fn : KeyFn) : List DuplicateMergeInfo :=
  let acc := rows.foldl (dmStep key_fn) ([], [])
  let row_counts := acc.1
  let merged_totals := acc.2
  (sortStrings ((row_counts.map Prod.fst).dedup)).filterMap (fun item_key =>
    if getTotal row_counts item_key ≤ 1 then none
    else some { key := item_key, row_count := getTotal row_counts item_key,
                merged_quantity := getTotal merged_totals item_key })

/-- `reconcile.detect_merged_duplicates`. -/
def detect_merged_duplicates (rows : List UnifiedInventoryRow) (key : KeySpec) :
    Except String (List DuplicateMergeInfo) :=
  (resolve_key_fn key).map (dmWith rows)

/-! ## Definitions supporting the verification -/

/-- The effective key a row contributes under: `none` when the key function returns
`None` or the empty string (both skipped by `if not key: continue`). -/
def effKey (key_fn : KeyFn) (row : UnifiedInventoryRow) : Option String :=
  match key_fn row with
  | none => none
  | some k => if k = "" then none else some k

/-- Total quantity contributed to key `k` by a list of rows. -/
def contribTotal (key_fn : KeyFn) (k : String) : List UnifiedInventoryRow → Int
  | [] => 0
  | r :: rest =>
    (if effKey key_fn r = some k then qtyOrZero r else 0) + contribTotal key_fn k rest

/-- Whether some row in the list has effective key `k`. -/
def hasKeyB (key_fn : KeyFn) (k : String) (rows : List UnifiedInventoryRow) : Bool :=
  rows.any (fun r => effKey key_fn r == some k)

/-- Build a row with the reconciliation-relevant fields set and the rest inert. -/
def mkTestRow (sku location : Option String) (quantity : Option Int) :
    UnifiedInventoryRow :=
  { source_file := "test.csv", source_row := 2, source_schema := "snapshot_v1",
    sku := sku, name := none, quantity := quantity, location := location,
    counted_on := none,
    raw := { sku := sku, name := none, quantity := none, location := location,
             counted_on := none },
    issues := [] }

/-- Snapshot-1 records of the worked example: SKU-001/Warehouse A twice (10 and 5),
SKU-002/Warehouse B once (4). -/
def c2_snapshot_1 : List UnifiedInventoryRow :=
  [mkTestRow (some "SKU-001") (some "Warehouse A") (some 10),
   mkTestRow (some "SKU-001") (some "Warehouse A") (some 5),
   mkTestRow (some "SKU-002") (some "Warehouse B") (some 4)]

/-- Snapshot-2 records of the worked example: SKU-001/Warehouse A (20),
SKU-003/Warehouse C (2). -/
def c2_snapshot_2 : List UnifiedInventoryRow :=
  [mkTestRow (some "SKU-001") (some "Warehouse A") (some 20),
   mkTestRow (some "SKU-003") (some "Warehouse C") (some 2)]

/-- A caller-supplied key strategy that returns the empty string for every row. -/
def emptyStringKeyFn : KeyFn := fun _ => some ""

/-! ## Helper lemmas -/

theorem mem_insertSorted (a x : String) (l : List String) :
    a ∈ insertSorted x l ↔ a = x ∨ a ∈ l := by
  induction l with
  | nil => simp [insertSorted]
  | cons y ys ih =>
    simp only [insertSorted]
    split
    · simp
    · simp only [List.mem_cons, ih]
      tauto

theorem mem_sortStrings (a : String) (l : List String) :
    a ∈ sortStrings l ↔ a ∈ l := by
  induction l with
  | nil => simp [sortStrings]
  | cons x xs ih =>
    show a ∈ insertSorted x (sortStrings xs) ↔ _
    rw [mem_insertSorted, ih]
    simp

theorem lookupTotal_nil (k : String) : lookupTotal [] k = none := rfl

theorem lookupTotal_cons_eq (k : String) (q : Int) (rest : Totals) :
    lookupTotal ((k, q) :: rest) k = some q := by
  unfold lookupTotal
  rw [List.find?_cons_of_pos _ (by simp)]

theorem lookupTotal_cons_ne (k0 k : String) (h : k0 ≠ k) (q : Int) (rest : Totals) :
    lookupTotal ((k0, q) :: rest) k = lookupTotal rest k := by
  unfold lookupTotal
  rw [List.find?_cons_of_neg _ (by simp [h])]

theorem lookupTotal_bump_self (t : Totals) (k : String) (q : Int) :
    lookupTotal (bumpTotals t k q) k = some ((lookupTotal t k).getD 0 + q) := by
  induction t with
  | nil =>
    show lookupTotal [(k, q)] k = _
    rw [lookupTotal_cons_eq, lookupTotal_nil]
    simp
  | cons p rest ih =>
    obtain ⟨k', q'⟩ := p
    by_cases h : k' = k
    · subst h
      simp only [bumpTotals]
      rw [if_pos trivial, lookupTotal_cons_eq, lookupTotal_cons_eq]
      rfl
    · simp only [bumpTotals, if_neg h]
      rw [lookupTotal_cons_ne k' k h, lookupTotal_cons_ne k' k h]
      exact ih

theorem lookupTotal_bump_other (t : Totals) (k k' : String) (q : Int) (h : k' ≠ k) :
    lookupTotal (bumpTotals t k q) k' = lookupTotal t k' := by
  induction t with
  | nil =>
    show lookupTotal [(k, q)] k' = _
    rw [lookupTotal_cons_ne k k' (Ne.symm h)]
  | cons p rest ih =>
    obtain ⟨k0, q0⟩ := p
    by_cases h0 : k0 = k
    · subst h0
      simp only [bumpTotals]
      rw [if_pos trivial, lookupTotal_cons_ne k0 k' (Ne.symm h),
        lookupTotal_cons_ne k0 k' (Ne.symm h)]
    · simp only [bumpTotals, if_neg h0]
      by_cases h1 : k0 = k'
      · subst h1
        rw [lookupTotal_cons_eq, lookupTotal_cons_eq]
      · rw [lookupTotal_cons_ne k0 k' h1, lookupTotal_cons_ne k0 k' h1]
        exact ih

theorem mem_map_fst_bump (t : Totals) (k a : String) (q : Int) :
    a ∈ (bumpTotals t k q).map Prod.fst ↔ a ∈ t.map Prod.fst ∨ a = k := by
  induction t with
  | nil => simp [bumpTotals]
  | cons p rest ih =>
    obtain ⟨k', q'⟩ := p
    by_cases h : k' = k
    · subst h
      simp [bumpTotals]
      tauto
    · simp only [bumpTotals, if_neg h, List.map_cons, List.mem_cons, ih]
      tauto

theorem aggStep_effKey (key_fn : KeyFn) (t : Totals) (r : UnifiedInventoryRow) :
    aggStep key_fn t r =
      match effKey key_fn r with
      | none => t
      | some k => bumpTotals t k (qtyOrZero r) := by
  unfold aggStep effKey
  cases key_fn r with
  | none => rfl
  | some k =>
    by_cases h : k = ""
    · simp [h]
    · simp [h]

theorem effKey_eq_some_iff (key_fn : KeyFn) (r : UnifiedInventoryRow) (k : String) :
    effKey key_fn r = some k ↔ key_fn r = some k ∧ k ≠ "" := by
  unfold effKey
  cases h : key_fn r with
  | none => simp
  | some k0 =>
    by_cases h0 : k0 = ""
    · subst h0
      simp only [if_pos rfl]
      constructor
      · intro hc
        cases hc
      · rintro ⟨he, hne⟩
        cases he
        exact absurd rfl hne
    · simp only [if_neg h0, Option.some_inj]
      constructor
      · intro hc
        subst hc
        exact ⟨rfl, h0⟩
      · rintro ⟨he, _⟩
        cases he
        rfl

theorem effKey_ne_some_empty (key_fn : KeyFn) (r : UnifiedInventoryRow) :
    effKey key_fn r ≠ some "" := by
  intro h
  rw [effKey_eq_some_iff] at h
  exact h.2 rfl

theorem hasKeyB_iff (key_fn : KeyFn) (k : String) (rows : List UnifiedInventoryRow) :
    hasKeyB key_fn k rows = true ↔ ∃ r ∈ rows, key_fn r = some k ∧ k ≠ "" := by
  unfold hasKeyB
  rw [List.any_eq_true]
  constructor
  · rintro ⟨r, hr, he⟩
    rw [beq_iff_eq, effKey_eq_some_iff] at he
    exact ⟨r, hr, he⟩
  · rintro ⟨r, hr, he⟩
    exact ⟨r, hr, by rw [beq_iff_eq, effKey_eq_some_iff]; exact he⟩

theorem hasKeyB_empty_false (key_fn : KeyFn) (rows : List UnifiedInventoryRow) :
    hasKeyB key_fn "" rows = false := by
  by_contra h
  rw [Bool.not_eq_false, hasKeyB_iff] at h
  obtain ⟨r, _, _, hne⟩ := h
  exact hne rfl

theorem lookupTotal_foldl (key_fn : KeyFn) (k : String)
    (rows : List UnifiedInventoryRow) :
    ∀ t : Totals,
      lookupTotal (rows.foldl (aggStep key_fn) t) k =
        if hasKeyB key_fn k rows || (lookupTotal t k).isSome then
          some ((lookupTotal t k).getD 0 + contribTotal key_fn k rows)
        else none := by
  induction rows with
  | nil =>
    intro t
    cases h : lookupTotal t k <;>
      simp [contribTotal, hasKeyB, h]
  | cons r rest ih =>
    intro t
    rw [List.foldl_cons, ih (aggStep key_fn t r), aggStep_effKey]
    cases he : effKey key_fn r with
    | none =>
      have hc : contribTotal key_fn k (r :: rest) = contribTotal key_fn k rest := by
        simp [contribTotal, he]
      have hh : hasKeyB key_fn k (r :: rest) = hasKeyB key_fn k rest := by
        simp [hasKeyB, he]
      rw [hc, hh]
    | some k0 =>
      by_cases hk : k0 = k
      · subst hk
        have hc : contribTotal key_fn k0 (r :: rest)
            = qtyOrZero r + contribTotal key_fn k0 rest := by
          simp [contribTotal, he]
        have hh : hasKeyB key_fn k0 (r :: rest) = true := by
          simp [hasKeyB, he]
        rw [hc, hh, lookupTotal_bump_self]
        cases hl : lookupTotal t k0 <;> simp [add_assoc]
      · have hc : contribTotal key_fn k (r :: rest) = contribTotal key_fn k rest := by
          simp [contribTotal, he, hk]
        have hh : hasKeyB key_fn k (r :: rest) = hasKeyB key_fn k rest := by
          simp [hasKeyB, he, hk]
        rw [hc, hh, lookupTotal_bump_other _ _ _ _ (Ne.symm hk)]

theorem lookupTotal_aggregate (rows : List UnifiedInventoryRow) (key_fn : KeyFn)
    (k : String) :
    lookupTotal (aggregate_quantities rows key_fn) k =
      if hasKeyB key_fn k rows then some (contribTotal key_fn k rows) else none := by
  have h := lookupTotal_foldl key_fn k rows []
  rw [aggregate_quantities, h, lookupTotal_nil]
  simp

theorem lookupTotal_isSome_iff (t : Totals) (k : String) :
    (lookupTotal t k).isSome = true ↔ k ∈ t.map Prod.fst := by
  induction t with
  | nil => simp [lookupTotal_nil]
  | cons p rest ih =>
    obtain ⟨k0, q0⟩ := p
    by_cases h : k0 = k
    · subst h
      rw [lookupTotal_cons_eq]
      simp
    · rw [lookupTotal_cons_ne k0 k h]
      simp only [List.map_cons, List.mem_cons, ih]
      constructor
      · intro hm
        exact Or.inr hm
      · rintro (hm | hm)
        · exact absurd hm.symm h
        · exact hm

theorem mem_keys_aggregate (rows : List UnifiedInventoryRow) (key_fn : KeyFn)
    (k : String) :
    k ∈ (aggregate_quantities rows key_fn).map Prod.fst ↔
      hasKeyB key_fn k rows = true := by
  rw [← lookupTotal_isSome_iff, lookupTotal_aggregate]
  by_cases hh : hasKeyB key_fn k rows <;> simp [hh]

theorem contribTotal_eq_sum (key_fn : KeyFn) (k : String)
    (rows : List UnifiedInventoryRow) :
    contribTotal key_fn k rows =
      (rows.map (fun r => if effKey key_fn r = some k then qtyOrZero r else 0)).sum := by
  induction rows with
  | nil => simp [contribTotal]
  | cons r rest ih => simp [contribTotal, ih]

theorem contribTotal_perm (key_fn : KeyFn) (k : String)
    {rows rows' : List UnifiedInventoryRow} (h : rows.Perm rows') :
    contribTotal key_fn k rows = contribTotal key_fn k rows' := by
  rw [contribTotal_eq_sum, contribTotal_eq_sum]
  exact (h.map _).sum_eq

theorem hasKeyB_perm (key_fn : KeyFn) (k : String)
    {rows rows' : List UnifiedInventoryRow} (h : rows.Perm rows') :
    hasKeyB key_fn k rows = hasKeyB key_fn k rows' := by
  rcases hb : hasKeyB key_fn k rows' with _ | _
  · rcases ha : hasKeyB key_fn k rows with _ | _
    · rfl
    · rw [hasKeyB_iff] at ha
      obtain ⟨r, hr, hk⟩ := ha
      have : hasKeyB key_fn k rows' = true :=
        (hasKeyB_iff key_fn k rows').mpr ⟨r, h.mem_iff.mp hr, hk⟩
      rw [this] at hb
      cases hb
  · rw [hasKeyB_iff] at hb
    obtain ⟨r, hr, hk⟩ := hb
    exact (hasKeyB_iff key_fn k rows).mpr ⟨r, h.mem_iff.mpr hr, hk⟩

theorem mem_dedup_keys (rows : List UnifiedInventoryRow) (key_fn : KeyFn) (k : String) :
    k ∈ ((aggregate_quantities rows key_fn).map Prod.fst).dedup ↔
      hasKeyB key_fn k rows = true := by
  rw [List.mem_dedup]
  exact mem_keys_aggregate rows key_fn k

theorem reconcileWith_self (A : List UnifiedInventoryRow) (key_fn : KeyFn) :
    reconcileWith A A key_fn =
      { in_both_unchanged :=
          sortStrings (((aggregate_quantities A key_fn).map Prod.fst).dedup),
        in_both_changed := [], only_in_snapshot_1 := [], only_in_snapshot_2 := [],
        delta_by_key := [] } := by
  unfold reconcileWith
  simp only [ReconciliationSummary.mk.injEq]
  have hcontains : (((aggregate_quantities A key_fn).map Prod.fst).dedup).filter
      (fun k => (((aggregate_quantities A key_fn).map Prod.fst).dedup).contains k)
      = ((aggregate_quantities A key_fn).map Prod.fst).dedup :=
    List.filter_eq_self.mpr (fun a ha => by simpa using ha)
  have hbne : ∀ l : List String, l.filter (fun k =>
      getTotal (aggregate_quantities A key_fn) k
        != getTotal (aggregate_quantities A key_fn) k) = [] :=
    fun l => List.filter_eq_nil_iff.mpr (fun a _ => by simp)
  have hnotc : (((aggregate_quantities A key_fn).map Prod.fst).dedup).filter
      (fun k => !(((aggregate_quantities A key_fn).map Prod.fst).dedup).contains k)
      = [] :=
    List.filter_eq_nil_iff.mpr (fun a ha => by simp [ha])
  refine ⟨?_, ?_, ?_, ?_, ?_⟩
  · rw [hcontains,
      List.filter_eq_self.mpr (fun a _ => beq_self_eq_true _)]
  · rw [hcontains, hbne]
    rfl
  · rw [hnotc]
    rfl
  · rw [hnotc]
    rfl
  · rw [hcontains, hbne]
    rfl

theorem foldl_aggStep_id (key_fn : KeyFn) (rows : List UnifiedInventoryRow)
    (h : ∀ r ∈ rows, key_fn r = none) :
    ∀ t : Totals, rows.foldl (aggStep key_fn) t = t := by
  induction rows with
  | nil => intro t; rfl
  | cons r rest ih =>
    intro t
    rw [List.foldl_cons]
    have hr : aggStep key_fn t r = t := by
      unfold aggStep
      rw [h r (by simp)]
    rw [hr]
    exact ih (fun r hr => h r (by simp [hr])) t

theorem aggregate_quantities_all_none (rows : List UnifiedInventoryRow) (key_fn : KeyFn)
    (h : ∀ r ∈ rows, key_fn r = none) :
    aggregate_quantities rows key_fn = [] :=
  foldl_aggStep_id key_fn rows h []

theorem reconcileWith_all_none (r1 r2 : List UnifiedInventoryRow) (key_fn : KeyFn)
    (h1 : ∀ r ∈ r1, key_fn r = none) (h2 : ∀ r ∈ r2, key_fn r = none) :
    reconcileWith r1 r2 key_fn =
      { in_both_unchanged := [], in_both_changed := [], only_in_snapshot_1 := [],
        only_in_snapshot_2 := [], delta_by_key := [] } := by
  unfold reconcileWith
  rw [aggregate_quantities_all_none r1 key_fn h1, aggregate_quantities_all_none r2 key_fn h2]
  rfl

theorem reconcile_mem_keys (r1 r2 : List UnifiedInventoryRow) (key_fn : KeyFn) :
    (∀ k ∈ (reconcileWith r1 r2 key_fn).in_both_unchanged,
       hasKeyB key_fn k r1 = true ∧ hasKeyB key_fn k r2 = true) ∧
    (∀ item ∈ (reconcileWith r1 r2 key_fn).in_both_changed,
       hasKeyB key_fn item.key r1 = true ∧ hasKeyB key_fn item.key r2 = true) ∧
    (∀ k ∈ (reconcileWith r1 r2 key_fn).only_in_snapshot_1, hasKeyB key_fn k r1 = true) ∧
    (∀ k ∈ (reconcileWith r1 r2 key_fn).only_in_snapshot_2, hasKeyB key_fn k r2 = true) ∧
    (∀ p ∈ (reconcileWith r1 r2 key_fn).delta_by_key, hasKeyB key_fn p.1 r1 = true) := by
  have hshared : ∀ k, k ∈ (((aggregate_quantities r1 key_fn).map Prod.fst).dedup).filter
      (fun k => (((aggregate_quantities r2 key_fn).map Prod.fst).dedup).contains k) →
      hasKeyB key_fn k r1 = true ∧ hasKeyB key_fn k r2 = true := by
    intro k hk
    rw [List.mem_filter] at hk
    obtain ⟨h1, h2⟩ := hk
    refine ⟨(mem_dedup_keys r1 key_fn k).mp h1, ?_⟩
    rw [← mem_dedup_keys r2 key_fn k]
    simpa using h2
  refine ⟨?_, ?_, ?_, ?_, ?_⟩
  · intro k hk
    simp only [reconcileWith] at hk
    rw [mem_sortStrings, List.mem_filter] at hk
    exact hshared k hk.1
  · intro item hitem
    simp only [reconcileWith] at hitem
    rw [List.mem_map] at hitem
    obtain ⟨k, hk, hkey⟩ := hitem
    rw [mem_sortStrings, List.mem_filter] at hk
    have := hshared k hk.1
    rw [← hkey]
    exact this
  · intro k hk
    simp only [reconcileWith] at hk
    rw [mem_sortStrings, List.mem_filter] at hk
    exact (mem_dedup_keys r1 key_fn k).mp hk.1
  · intro k hk
    simp only [reconcileWith] at hk
    rw [mem_sortStrings, List.mem_filter] at hk
    exact (mem_dedup_keys r2 key_fn k).mp hk.1
  · intro p hp
    simp only [reconcileWith] at hp
    rw [List.mem_map] at hp
    obtain ⟨item, hitem, hpeq⟩ := hp
    rw [List.mem_map] at hitem
    obtain ⟨k, hk, hkey⟩ := hitem
    rw [mem_sortStrings, List.mem_filter] at hk
    have := (hshared k hk.1).1
    rw [← hpeq, ← hkey]
    exact this

theorem reconcileWith_no_overlap (r1 r2 : List UnifiedInventoryRow) (key_fn : KeyFn)
    (h : ∀ k, hasKeyB key_fn k r1 = true → hasKeyB key_fn k r2 = false) :
    (reconcileWith r1 r2 key_fn).in_both_unchanged = [] ∧
    (reconcileWith r1 r2 key_fn).in_both_changed = [] ∧
    (reconcileWith r1 r2 key_fn).delta_by_key = [] := by
  have hshared : (((aggregate_quantities r1 key_fn).map Prod.fst).dedup).filter
      (fun k => (((aggregate_quantities r2 key_fn).map Prod.fst).dedup).contains k)
      = [] := by
    refine List.filter_eq_nil_iff.mpr (fun a ha => ?_)
    have h1 := (mem_dedup_keys r1 key_fn a).mp ha
    have h2 := h a h1
    intro hc
    have : a ∈ ((aggregate_quantities r2 key_fn).map Prod.fst).dedup := by
      simpa using hc
    rw [mem_dedup_keys r2 key_fn a] at this
    rw [this] at h2
    cases h2
  refine ⟨?_, ?_, ?_⟩ <;>
    simp only [reconcileWith, hshared, List.filter_nil, List.map_nil] <;> rfl

theorem aggStep_mask (key_fn : KeyFn) (t : Totals) (r : UnifiedInventoryRow) :
    aggStep (effKey key_fn) t r = aggStep key_fn t r := by
  rw [aggStep_effKey key_fn t r]
  unfold aggStep
  cases he : effKey key_fn r with
  | none => rfl
  | some k =>
    have hk : k ≠ "" := fun hke => effKey_ne_some_empty key_fn r (hke ▸ he)
    simp [hk]

theorem aggregate_quantities_mask (rows : List UnifiedInventoryRow) (key_fn : KeyFn) :
    aggregate_quantities rows (effKey key_fn) = aggregate_quantities rows key_fn := by
  unfold aggregate_quantities
  simp only [show aggStep (effKey key_fn) = aggStep key_fn from
    funext fun t => funext fun r => aggStep_mask key_fn t r]

theorem dmStep_effKey (key_fn : KeyFn) (acc : Totals × Totals) (r : UnifiedInventoryRow) :
    dmStep key_fn acc r =
      match effKey key_fn r with
      | none => acc
      | some k => (bumpTotals acc.1 k 1, bumpTotals acc.2 k (qtyOrZero r)) := by
  unfold dmStep effKey
  cases key_fn r with
  | none => rfl
  | some k =>
    by_cases h : k = ""
    · simp [h]
    · simp [h]

theorem dmStep_mask (key_fn : KeyFn) (acc : Totals × Totals) (r : UnifiedInventoryRow) :
    dmStep (effKey key_fn) acc r = dmStep key_fn acc r := by
  rw [dmStep_effKey key_fn acc r]
  unfold dmStep
  cases he : effKey key_fn r with
  | none => rfl
  | some k =>
    have hk : k ≠ "" := fun hke => effKey_ne_some_empty key_fn r (hke ▸ he)
    simp [hk]

theorem dmWith_mask (rows : List UnifiedInventoryRow) (key_fn : KeyFn) :
    dmWith rows (effKey key_fn) = dmWith rows key_fn := by
  unfold dmWith
  simp only [show dmStep (effKey key_fn) = dmStep key_fn from
    funext fun acc => funext fun r => dmStep_mask key_fn acc r]

theorem reconcileWith_mask (r1 r2 : List UnifiedInventoryRow) (key_fn : KeyFn) :
    reconcileWith r1 r2 (effKey key_fn) = reconcileWith r1 r2 key_fn := by
  unfold reconcileWith
  rw [aggregate_quantities_mask r1 key_fn, aggregate_quantities_mask r2 key_fn]

theorem foldl_dmStep_fst_no_empty (key_fn : KeyFn) (rows : List UnifiedInventoryRow) :
    ∀ acc : Totals × Totals, "" ∉ acc.1.map Prod.fst →
      "" ∉ ((rows.foldl (dmStep key_fn) acc).1).map Prod.fst := by
  induction rows with
  | nil => intro acc h; exact h
  | cons r rest ih =>
    intro acc h
    rw [List.foldl_cons, dmStep_effKey]
    cases he : effKey key_fn r with
    | none => exact ih acc h
    | some k =>
      have hk : k ≠ "" := fun hke => effKey_ne_some_empty key_fn r (hke ▸ he)
      apply ih
      intro hmem
      rw [mem_map_fst_bump] at hmem
      rcases hmem with hm | hm
      · exact h hm
      · exact hk hm.symm

theorem dmWith_key_ne_empty (rows : List UnifiedInventoryRow) (key_fn : KeyFn) :
    ∀ d ∈ dmWith rows key_fn, d.key ≠ "" := by
  intro d hd
  simp only [dmWith] at hd
  rw [List.mem_filterMap] at hd
  obtain ⟨k, hk, hif⟩ := hd
  by_cases hle : getTotal (rows.foldl (dmStep key_fn) ([], [])).1 k ≤ 1
  · rw [if_pos hle] at hif
    cases hif
  · rw [if_neg hle] at hif
    cases hif
    intro hke
    have hkeq : k = "" := hke
    rw [hkeq, mem_sortStrings, List.mem_dedup] at hk
    exact foldl_dmStep_fst_no_empty key_fn rows ([], []) (by simp) hk

theorem normalize_text_trimmed (v : String) (f : String) (h1 : pyStrip v = v)
    (h2 : v ≠ "") : normalize_text (some v) f = (some v, []) := by
  simp [normalize_text, h1, h2]

theorem normalize_text_none_issue (value : Option String) (f : String)
    (h : (normalize_text value f).1 = none) :
    ∃ i ∈ (normalize_text value f).2, i.field = some f := by
  cases value with
  | none =>
    exact ⟨{ code := "missing_value", message := f ++ " is missing", field := some f },
      by simp [normalize_text], rfl⟩
  | some v =>
    by_cases hb : pyStrip v = ""
    · exact ⟨{ code := "missing_value", message := f ++ " is empty", field := some f },
        by simp [normalize_text, hb], rfl⟩
    · by_cases hv : pyStrip v = v
      · have hb2 : v ≠ "" := fun he => hb (by rw [hv, he])
        exfalso
        simp [normalize_text, hv, hb2] at h
      · exfalso
        simp [normalize_text, hb, hv] at h

theorem normalize_text_codes (value : Option String) (f : String) :
    ∀ i ∈ (normalize_text value f).2,
      i.code = "missing_value" ∨ i.code = "whitespace_trimmed" := by
  intro i hi
  cases value with
  | none =>
    simp [normalize_text] at hi
    rw [hi]
    exact Or.inl rfl
  | some v =>
    by_cases hb : pyStrip v = ""
    · simp [normalize_text, hb] at hi
      rw [hi]
      exact Or.inl rfl
    · by_cases hv : pyStrip v = v
      · have hb2 : v ≠ "" := fun he => hb (by rw [hv, he])
        simp [normalize_text, hv, hb2] at hi
      · simp [normalize_text, hb, hv] at hi
        rw [hi]
        exact Or.inr rfl

theorem normalize_text_some_eq (v : String) (f : String) (c : String)
    (h : (normalize_text (some v) f).1 = some c) : c = pyStrip v := by
  by_cases hb : pyStrip v = ""
  · simp [normalize_text, hb] at h
  · by_cases hv : pyStrip v = v
    · have hb2 : v ≠ "" := fun he => hb (by rw [hv, he])
      simp [normalize_text, hv, hb2] at h
      rw [← h, hv]
    · simp [normalize_text, hb, hv] at h
      rw [← h]

theorem pyStrip_data_subset (v : String) : (pyStrip v).data ⊆ v.data := by
  intro a ha
  have ha2 : a ∈ ((v.data.dropWhile isPySpace).reverse.dropWhile isPySpace).reverse := ha
  rw [List.mem_reverse] at ha2
  have hb := (List.dropWhile_sublist _).subset ha2
  rw [List.mem_reverse] at hb
  exact (List.dropWhile_sublist _).subset hb

theorem containsChar_pyStrip_false (v : String) (c : Char)
    (h : containsChar v c = false) : containsChar (pyStrip v) c = false := by
  by_contra hc
  rw [Bool.not_eq_false] at hc
  have h1 : c ∈ (pyStrip v).data := by simpa [containsChar] using hc
  have h2 : c ∈ v.data := pyStrip_data_subset v h1
  have h3 : containsChar v c = true := by simpa [containsChar] using h2
  rw [h3] at h
  cases h

theorem normalize_sku_none_issue (value : Option String)
    (h : (normalize_sku value).1 = none) :
    ∃ i ∈ (normalize_sku value).2, i.field = some "sku" := by
  unfold normalize_sku at *
  cases hnt : normalize_text value "sku" with
  | mk fst issues =>
    rw [hnt] at h
    cases fst with
    | none =>
      have hh := normalize_text_none_issue value "sku" (by rw [hnt])
      rw [hnt] at hh
      simpa using hh
    | some cleaned =>
      exfalso
      by_cases hs : _sku_standard_match (skuCandidate cleaned)
      · by_cases hc : skuCandidate cleaned = cleaned
        · have hs2 : _sku_standard_match cleaned = true := by rw [← hc]; exact hs
          simp [hs2, hc] at h
        · simp [hs, hc] at h
      · by_cases hn : _sku_no_hyphen_match (skuCandidate cleaned) <;> simp [hs, hn] at h

theorem parse_quantity_none_issue (value : Option String)
    (h : (parse_quantity value).1 = none) :
    ∃ i ∈ (parse_quantity value).2, i.field = some "quantity" := by
  unfold parse_quantity at *
  cases hnt : normalize_text value "quantity" with
  | mk fst issues =>
    rw [hnt] at h
    cases fst with
    | none =>
      have hh := normalize_text_none_issue value "quantity" (by rw [hnt])
      rw [hnt] at hh
      simpa using hh
    | some cleaned =>
      cases hrd : readDecimal cleaned with
      | none =>
        refine ⟨invalidQuantityIssue cleaned, ?_, rfl⟩
        simp [hrd]
      | some p =>
        obtain ⟨m, sc⟩ := p
        by_cases hint : isIntegralDec m sc
        · exfalso
          by_cases hneg : decToInt m sc < 0 <;>
            by_cases hdot : containsChar cleaned '.' <;>
              simp [hrd, hint, hneg, hdot] at h
        · refine ⟨nonIntegralQuantityIssue cleaned, ?_, rfl⟩
          simp [hrd, hint]

theorem parse_inventory_date_none_issue (value : Option String)
    (h : (parse_inventory_date value).1 = none) :
    ∃ i ∈ (parse_inventory_date value).2, i.field = some "counted_on" := by
  unfold parse_inventory_date at *
  cases hnt : normalize_text value "counted_on" with
  | mk fst issues =>
    rw [hnt] at h
    cases fst with
    | none =>
      have hh := normalize_text_none_issue value "counted_on" (by rw [hnt])
      rw [hnt] at hh
      simpa using hh
    | some cleaned =>
      cases hiso : tryIsoDate cleaned with
      | some d =>
        exfalso
        simp [hiso] at h
      | none =>
        cases hleg : tryLegacyDate cleaned with
        | some d =>
          exfalso
          simp [hiso, hleg] at h
        | none =>
          refine ⟨⟨"invalid_date", "Unable to parse date: " ++ cleaned,
            some "counted_on"⟩, ?_, rfl⟩
          simp [hiso, hleg]

/-! ## Claim theorems -/

/-- C1, counterexample to the claim as stated: for the caller-supplied key strategy
that returns the empty string on every record, `reconcile(A, A, key)` does NOT list
the (non-`None`) empty-string key in `in_both_unchanged` — aggregation skips falsy
keys — so `in_both_unchanged` does not contain exactly the keys that are not `None`. -/
theorem reconcile_self_spec_counterexample :
    ¬ ∀ s, reconcile_rows [mkTestRow (some "SKU-001") (some "Warehouse A") (some 10)]
          [mkTestRow (some "SKU-001") (some "Warehouse A") (some 10)]
          (.custom emptyStringKeyFn) = .ok s →
        (∀ k, k ∈ s.in_both_unchanged ↔
          ∃ r ∈ [mkTestRow (some "SKU-001") (some "Warehouse A") (some 10)],
            emptyStringKeyFn r = some k) := by
  intro hcl
  have h := hcl (reconcileWith [mkTestRow (some "SKU-001") (some "Warehouse A") (some 10)]
    [mkTestRow (some "SKU-001") (some "Warehouse A") (some 10)] emptyStringKeyFn) rfl
  have h2 := (h "").mpr
    ⟨mkTestRow (some "SKU-001") (some "Warehouse A") (some 10), by simp, rfl⟩
  have h3 : (reconcileWith [mkTestRow (some "SKU-001") (some "Warehouse A") (some 10)]
      [mkTestRow (some "SKU-001") (some "Warehouse A") (some 10)]
      emptyStringKeyFn).in_both_unchanged = [] := rfl
  rw [h3] at h2
  cases h2

/-- C1 (amended): for every non-empty record list `A` and every resolvable key
strategy, `reconcile(A, A, key)` succeeds with empty `in_both_changed`,
`only_in_snapshot_1` and `only_in_snapshot_2`, and `in_both_unchanged` contains
exactly the keys produced by the strategy on records of `A` that are neither `None`
nor the empty string. -/
theorem reconcile_self_spec (A : List UnifiedInventoryRow) (key : KeySpec)
    (key_fn : KeyFn) (_hA : A ≠ []) (hres : resolve_key_fn key = .ok key_fn) :
    reconcile_rows A A key = .ok (reconcileWith A A key_fn) ∧
    (reconcileWith A A key_fn).in_both_changed = [] ∧
    (reconcileWith A A key_fn).only_in_snapshot_1 = [] ∧
    (reconcileWith A A key_fn).only_in_snapshot_2 = [] ∧
    ∀ k, k ∈ (reconcileWith A A key_fn).in_both_unchanged ↔
      (∃ r ∈ A, key_fn r = some k) ∧ k ≠ "" := by
  refine ⟨by rw [reconcile_rows, hres]; rfl, ?_, ?_, ?_, ?_⟩
  · rw [reconcileWith_self]
  · rw [reconcileWith_self]
  · rw [reconcileWith_self]
  · intro k
    rw [reconcileWith_self]
    show k ∈ sortStrings (((aggregate_quantities A key_fn).map Prod.fst).dedup) ↔ _
    rw [mem_sortStrings, mem_dedup_keys, hasKeyB_iff]
    constructor
    · rintro ⟨r, hr, hk, hne⟩
      exact ⟨⟨r, hr, hk⟩, hne⟩
    · rintro ⟨⟨r, hr, hk⟩, hne⟩
      exact ⟨r, hr, hk, hne⟩

/-- C1 witness: the amended theorem applied to the worked snapshot-1 records with
the named `sku` strategy. -/
theorem reconcile_self_spec_witness :
    reconcile_rows c2_snapshot_1 c2_snapshot_1 (.named "sku") =
      .ok (reconcileWith c2_snapshot_1 c2_snapshot_1 key_by_sku) ∧
    "SKU-001" ∈ (reconcileWith c2_snapshot_1 c2_snapshot_1 key_by_sku).in_both_unchanged := by
  have h := reconcile_self_spec c2_snapshot_1 (.named "sku") key_by_sku
    (by simp [c2_snapshot_1]) rfl
  refine ⟨h.1, (h.2.2.2.2 "SKU-001").mpr ⟨⟨mkTestRow (some "SKU-001") (some "Warehouse A")
    (some 10), by simp [c2_snapshot_1], rfl⟩, by decide⟩⟩

/-- C2: on the worked example keyed by `sku_warehouse`, the duplicate-merge report of
snapshot 1 is exactly `[{SKU-001|warehouse a, 2 rows, 15}]`, and reconciliation yields
`in_both_changed = [{SKU-001|warehouse a, 15, 20, +5}]`,
`only_in_snapshot_1 = [SKU-002|warehouse b]`, `only_in_snapshot_2 = [SKU-003|warehouse c]`. -/
theorem merge_and_reconcile_example_spec :
    detect_merged_duplicates c2_snapshot_1 (.named "sku_warehouse") =
      .ok [{ key := "SKU-001|warehouse a", row_count := 2, merged_quantity := 15 }] ∧
    (reconcile_rows c2_snapshot_1 c2_snapshot_2 (.named "sku_warehouse")).map
        (fun s => s.in_both_changed) =
      .ok [{ key := "SKU-001|warehouse a", snapshot_1_quantity := 15,
             snapshot_2_quantity := 20, delta := 5 }] ∧
    (reconcile_rows c2_snapshot_1 c2_snapshot_2 (.named "sku_warehouse")).map
        (fun s => s.only_in_snapshot_1) = .ok ["SKU-002|warehouse b"] ∧
    (reconcile_rows c2_snapshot_1 c2_snapshot_2 (.named "sku_warehouse")).map
        (fun s => s.only_in_snapshot_2) = .ok ["SKU-003|warehouse c"] :=
  ⟨rfl, rfl, rfl, rfl⟩

/-- C4: aggregation is invariant under permutation of the input records — the
resulting key-to-total mapping is pointwise identical. -/
theorem aggregate_quantities_perm_spec (rows rows' : List UnifiedInventoryRow)
    (key_fn : KeyFn) (h : rows.Perm rows') (k : String) :
    lookupTotal (aggregate_quantities rows' key_fn) k
      = lookupTotal (aggregate_quantities rows key_fn) k := by
  rw [lookupTotal_aggregate, lookupTotal_aggregate,
    hasKeyB_perm key_fn k h, contribTotal_perm key_fn k h]

/-- C4 witness: swapping two concrete records leaves the aggregated total of their
shared key unchanged. -/
theorem aggregate_quantities_perm_spec_witness :
    lookupTotal (aggregate_quantities
      [mkTestRow (some "SKU-001") (some "Warehouse A") (some 10),
       mkTestRow (some "SKU-001") (some "Warehouse A") (some 5)] key_by_sku) "SKU-001"
    = lookupTotal (aggregate_quantities
      [mkTestRow (some "SKU-001") (some "Warehouse A") (some 5),
       mkTestRow (some "SKU-001") (some "Warehouse A") (some 10)] key_by_sku) "SKU-001" :=
  aggregate_quantities_perm_spec
    [mkTestRow (some "SKU-001") (some "Warehouse A") (some 5),
     mkTestRow (some "SKU-001") (some "Warehouse A") (some 10)]
    [mkTestRow (some "SKU-001") (some "Warehouse A") (some 10),
     mkTestRow (some "SKU-001") (some "Warehouse A") (some 5)] key_by_sku
    (List.Perm.swap _ _ _) "SKU-001"

theorem setEqStr_mem (a b : List String) (h : setEqStr a b = true) (x : String) :
    x ∈ a ↔ x ∈ b := by
  unfold setEqStr at h
  rw [Bool.and_eq_true, List.all_eq_true, List.all_eq_true] at h
  constructor
  · intro hx
    have hh := h.1 x hx
    simpa using hh
  · intro hx
    have hh := h.2 x hx
    simpa using hh

/-- C7: schema detection fails with the no-header-row condition on an absent or empty
header list, returns `snapshot_v1` when the trimmed lowercased header set equals
exactly the v1 set, `snapshot_v2` for exactly the v2 set, and fails on every other
non-empty header list with an unrecognized-schema condition carrying the sorted
normalized header list. -/
theorem detect_schema_spec :
    (detect_schema none = .error "CSV file has no header row") ∧
    (detect_schema (some []) = .error "CSV file has no header row") ∧
    (∀ hs : List String, hs ≠ [] →
       setEqStr ((hs.map _normalize_header).dedup) schema_v1.fields = true →
       detect_schema (some hs) = .ok schema_v1) ∧
    (∀ hs : List String, hs ≠ [] →
       setEqStr ((hs.map _normalize_header).dedup) schema_v2.fields = true →
       detect_schema (some hs) = .ok schema_v2) ∧
    (∀ hs : List String, hs ≠ [] →
       setEqStr ((hs.map _normalize_header).dedup) schema_v1.fields = false →
       setEqStr ((hs.map _normalize_header).dedup) schema_v2.fields = false →
       detect_schema (some hs) = .error ("Unrecognized CSV schema fields: "
         ++ joinComma (sortStrings ((hs.map _normalize_header).dedup)))) := by
  refine ⟨rfl, rfl, ?_, ?_, ?_⟩
  · intro hs hne hseq
    have hne' : hs.isEmpty = false := by
      cases hs with
      | nil => cases hne rfl
      | cons a l => rfl
    unfold detect_schema
    dsimp only
    rw [hne']
    simp only [Bool.false_eq_true, if_false]
    rw [show _SCHEMAS = [schema_v1, schema_v2] from rfl,
      @List.find?_cons_of_pos SchemaDefinition
        (fun schema => setEqStr ((List.map _normalize_header hs).dedup) schema.fields)
        schema_v1 [schema_v2] hseq]
  · intro hs hne hseq
    have hne' : hs.isEmpty = false := by
      cases hs with
      | nil => cases hne rfl
      | cons a l => rfl
    have h1 : setEqStr ((hs.map _normalize_header).dedup) schema_v1.fields = false := by
      by_contra hx
      rw [Bool.not_eq_false] at hx
      have hm1 := (setEqStr_mem _ _ hx "name").mpr (by decide)
      have hm2 := (setEqStr_mem _ _ hseq "name").mp hm1
      revert hm2
      decide
    unfold detect_schema
    dsimp only
    rw [hne']
    simp only [Bool.false_eq_true, if_false]
    rw [show _SCHEMAS = [schema_v1, schema_v2] from rfl,
      List.find?_cons_of_neg _ (by simp [h1]),
      @List.find?_cons_of_pos SchemaDefinition
        (fun schema => setEqStr ((List.map _normalize_header hs).dedup) schema.fields)
        schema_v2 [] hseq]
  · intro hs hne h1 h2
    have hne' : hs.isEmpty = false := by
      cases hs with
      | nil => cases hne rfl
      | cons a l => rfl
    unfold detect_schema
    dsimp only
    rw [hne']
    simp only [Bool.false_eq_true, if_false]
    rw [show _SCHEMAS = [schema_v1, schema_v2] from rfl,
      List.find?_cons_of_neg _ (by simp [h1]), List.find?_cons_of_neg _ (by simp [h2])]
    rfl

/-- C7 witness: concrete header lists exercising the v1 match (with case and
whitespace noise), the v2 match, and an unrecognized header set. -/
theorem detect_schema_spec_witness :
    detect_schema (some ["SKU ", "Name", "quantity", "location", "last_counted"])
      = .ok schema_v1 ∧
    detect_schema (some ["sku", "product_name", "qty", "warehouse", "updated_at"])
      = .ok schema_v2 ∧
    detect_schema (some ["sku", "name", "bogus"])
      = .error "Unrecognized CSV schema fields: bogus, name, sku" := by
  refine ⟨?_, ?_, ?_⟩
  · exact detect_schema_spec.2.2.1 _ (by decide) (by decide)
  · exact detect_schema_spec.2.2.2.1 _ (by decide) (by decide)
  · exact detect_schema_spec.2.2.2.2 ["sku", "name", "bogus"]
      (by decide) (by decide) (by decide)

/-- C8: in the per-row loop of snapshot parsing, a row whose declared columns are all
absent or blank yields a `blank_row_skipped` file issue and contributes no record,
while a row with more cells than declared headers yields a `row_has_extra_columns`
file issue and (when not blank) is still parsed via the declared columns only. -/
theorem parse_data_row_step_spec (schema : SchemaDefinition) (headers : List String)
    (source_file : String) (line_number : Nat) (cells : List String)
    (rest : List (List String)) :
    (_is_blank_row (dictRead headers cells) headers = true →
       (_parse_data_rows schema headers source_file line_number (cells :: rest)).1
         = (_parse_data_rows schema headers source_file (line_number + 1) rest).1 ∧
       blankRowIssue line_number
         ∈ (_parse_data_rows schema headers source_file line_number (cells :: rest)).2) ∧
    (headers.length < cells.length →
       extraColumnsIssue line_number
         ∈ (_parse_data_rows schema headers source_file line_number (cells :: rest)).2) ∧
    (_is_blank_row (dictRead headers cells) headers = false →
       (_parse_data_rows schema headers source_file line_number (cells :: rest)).1
         = _to_row (dictRead headers cells) line_number source_file schema
             :: (_parse_data_rows schema headers source_file (line_number + 1) rest).1) := by
  refine ⟨?_, ?_, ?_⟩
  · intro hb
    constructor
    · simp [_parse_data_rows, hb]
    · by_cases hx : headers.length < cells.length <;> simp [_parse_data_rows, hb, hx]
  · intro hx
    by_cases hb : _is_blank_row (dictRead headers cells) headers <;>
      simp [_parse_data_rows, hb, hx]
  · intro hb
    simp [_parse_data_rows, hb]

/-- C8 witness: with v1 headers, a fully blank row is skipped with a blank-row issue,
and a row with one extra cell gets an extra-columns issue but still yields a record. -/
theorem parse_data_row_step_spec_witness :
    ((_parse_data_rows schema_v1 schema_v1.fields "t.csv" 2
        [["", " ", "", "", ""]]).1
      = (_parse_data_rows schema_v1 schema_v1.fields "t.csv" 3 []).1 ∧
     blankRowIssue 2 ∈ (_parse_data_rows schema_v1 schema_v1.fields "t.csv" 2
        [["", " ", "", "", ""]]).2) ∧
    extraColumnsIssue 2 ∈ (_parse_data_rows schema_v1 schema_v1.fields "t.csv" 2
        [["SKU-001", "Widget", "5", "A", "2024-01-15", "extra"]]).2 ∧
    (_parse_data_rows schema_v1 schema_v1.fields "t.csv" 2
        [["SKU-001", "Widget", "5", "A", "2024-01-15", "extra"]]).1
      = _to_row (dictRead schema_v1.fields
          ["SKU-001", "Widget", "5", "A", "2024-01-15", "extra"]) 2 "t.csv" schema_v1
        :: (_parse_data_rows schema_v1 schema_v1.fields "t.csv" 3 []).1 := by
  refine ⟨?_, ?_, ?_⟩
  · exact (parse_data_row_step_spec schema_v1 schema_v1.fields "t.csv" 2
      ["", " ", "", "", ""] []).1 (by decide)
  · exact (parse_data_row_step_spec schema_v1 schema_v1.fields "t.csv" 2
      ["SKU-001", "Widget", "5", "A", "2024-01-15", "extra"] []).2.1 (by decide)
  · exact (parse_data_row_step_spec schema_v1 schema_v1.fields "t.csv" 2
      ["SKU-001", "Widget", "5", "A", "2024-01-15", "extra"] []).2.2 (by decide)

/-- C9: resolving a key strategy fails (with the unsupported-key-strategy condition)
exactly for named strategies outside the four built-ins, a caller-supplied callable
is passed through unchanged, and reconciliation itself never fails once the strategy
resolves: empty collections, all-`None` keys and zero key overlap all yield a
well-formed summary with empty lists. -/
theorem resolve_key_spec :
    (∀ s : String,
       s ∉ (["sku", "name", "sku_warehouse", "name_warehouse"] : List String) →
       resolve_key_fn (.named s) = .error ("Unsupported reconciliation key: " ++ s)) ∧
    (∀ f : KeyFn, resolve_key_fn (.custom f) = .ok f) ∧
    (∀ (r1 r2 : List UnifiedInventoryRow) (key : KeySpec) (key_fn : KeyFn),
       resolve_key_fn key = .ok key_fn →
       reconcile_rows r1 r2 key = .ok (reconcileWith r1 r2 key_fn)) ∧
    (∀ key_fn : KeyFn, reconcileWith [] [] key_fn =
       { in_both_unchanged := [], in_both_changed := [], only_in_snapshot_1 := [],
         only_in_snapshot_2 := [], delta_by_key := [] }) ∧
    (∀ (r1 r2 : List UnifiedInventoryRow) (key_fn : KeyFn),
       (∀ r ∈ r1, key_fn r = none) → (∀ r ∈ r2, key_fn r = none) →
       reconcileWith r1 r2 key_fn =
         { in_both_unchanged := [], in_both_changed := [], only_in_snapshot_1 := [],
           only_in_snapshot_2 := [], delta_by_key := [] }) ∧
    (∀ (r1 r2 : List UnifiedInventoryRow) (key_fn : KeyFn),
       (∀ k, hasKeyB key_fn k r1 = true → hasKeyB key_fn k r2 = false) →
       (reconcileWith r1 r2 key_fn).in_both_unchanged = [] ∧
       (reconcileWith r1 r2 key_fn).in_both_changed = [] ∧
       (reconcileWith r1 r2 key_fn).delta_by_key = []) := by
  refine ⟨?_, ?_, ?_, ?_, ?_, ?_⟩
  · intro s hs
    simp only [List.mem_cons, List.not_mem_nil, or_false, not_or] at hs
    obtain ⟨h1, h2, h3, h4⟩ := hs
    simp [resolve_key_fn, h1, h2, h3, h4]
  · intro f
    rfl
  · intro r1 r2 key key_fn hres
    rw [reconcile_rows, hres]
    rfl
  · intro key_fn
    rfl
  · exact fun r1 r2 key_fn h1 h2 => reconcileWith_all_none r1 r2 key_fn h1 h2
  · exact fun r1 r2 key_fn h => reconcileWith_no_overlap r1 r2 key_fn h

/-- C9 witness: a bogus strategy name is rejected with the expected message; a custom
callable resolves to itself; reconciling empty snapshots, all-`None`-key records, and
non-overlapping snapshots each succeed with the empty summary parts. -/
theorem resolve_key_spec_witness :
    resolve_key_fn (.named "bogus") = .error "Unsupported reconciliation key: bogus" ∧
    resolve_key_fn (.custom key_by_name) = .ok key_by_name ∧
    reconcile_rows [] [] (.named "sku") =
      .ok { in_both_unchanged := [], in_both_changed := [], only_in_snapshot_1 := [],
            only_in_snapshot_2 := [], delta_by_key := [] } ∧
    reconcileWith [mkTestRow none none (some 3)] [mkTestRow none none (some 4)]
        key_by_sku =
      { in_both_unchanged := [], in_both_changed := [], only_in_snapshot_1 := [],
        only_in_snapshot_2 := [], delta_by_key := [] } ∧
    (reconcileWith c2_snapshot_1 [] key_by_sku).in_both_unchanged = [] ∧
    (reconcileWith c2_snapshot_1 [] key_by_sku).in_both_changed = [] := by
  refine ⟨?_, ?_, ?_, ?_, ?_, ?_⟩
  · exact resolve_key_spec.1 "bogus" (by decide)
  · exact resolve_key_spec.2.1 key_by_name
  · rw [resolve_key_spec.2.2.1 [] [] (.named "sku") key_by_sku rfl,
      resolve_key_spec.2.2.2.1 key_by_sku]
  · refine resolve_key_spec.2.2.2.2.1 _ _ key_by_sku ?_ ?_
    · intro r hr
      rw [List.mem_singleton] at hr
      subst hr
      rfl
    · intro r hr
      rw [List.mem_singleton] at hr
      subst hr
      rfl
  · exact (resolve_key_spec.2.2.2.2.2 c2_snapshot_1 [] key_by_sku
      (fun k _ => rfl)).1
  · exact (resolve_key_spec.2.2.2.2.2 c2_snapshot_1 [] key_by_sku
      (fun k _ => rfl)).2.1

/-- C10: a record whose key function returns the empty string is excluded from
aggregation, duplicate detection and reconciliation exactly as if its key were
`None` (masking empty-string keys to `None` changes nothing), and the empty-string
key appears in no totals mapping, duplicate report, or summary category. -/
theorem empty_string_key_excluded_spec :
    (∀ (rows : List UnifiedInventoryRow) (key_fn : KeyFn),
       aggregate_quantities rows (effKey key_fn) = aggregate_quantities rows key_fn ∧
       dmWith rows (effKey key_fn) = dmWith rows key_fn ∧
       lookupTotal (aggregate_quantities rows key_fn) "" = none ∧
       (∀ d ∈ dmWith rows key_fn, d.key ≠ "")) ∧
    (∀ (r1 r2 : List UnifiedInventoryRow) (key_fn : KeyFn),
       reconcileWith r1 r2 (effKey key_fn) = reconcileWith r1 r2 key_fn ∧
       "" ∉ (reconcileWith r1 r2 key_fn).in_both_unchanged ∧
       (∀ item ∈ (reconcileWith r1 r2 key_fn).in_both_changed, item.key ≠ "") ∧
       "" ∉ (reconcileWith r1 r2 key_fn).only_in_snapshot_1 ∧
       "" ∉ (reconcileWith r1 r2 key_fn).only_in_snapshot_2 ∧
       (∀ p ∈ (reconcileWith r1 r2 key_fn).delta_by_key, p.1 ≠ "")) := by
  constructor
  · intro rows key_fn
    refine ⟨aggregate_quantities_mask rows key_fn, dmWith_mask rows key_fn, ?_,
      dmWith_key_ne_empty rows key_fn⟩
    rw [lookupTotal_aggregate, hasKeyB_empty_false]
    rfl
  · intro r1 r2 key_fn
    refine ⟨reconcileWith_mask r1 r2 key_fn, ?_, ?_, ?_, ?_, ?_⟩
    · intro hm
      have h := ((reconcile_mem_keys r1 r2 key_fn).1 "" hm).1
      rw [hasKeyB_empty_false] at h
      cases h
    · intro item hitem hk
      have h := ((reconcile_mem_keys r1 r2 key_fn).2.1 item hitem).1
      rw [hk, hasKeyB_empty_false] at h
      cases h
    · intro hm
      have h := (reconcile_mem_keys r1 r2 key_fn).2.2.1 "" hm
      rw [hasKeyB_empty_false] at h
      cases h
    · intro hm
      have h := (reconcile_mem_keys r1 r2 key_fn).2.2.2.1 "" hm
      rw [hasKeyB_empty_false] at h
      cases h
    · intro p hp hk
      have h := (reconcile_mem_keys r1 r2 key_fn).2.2.2.2 p hp
      rw [hk, hasKeyB_empty_false] at h
      cases h

/-- C10 witness: with the always-empty-string custom strategy, the totals mapping has
no entry for the empty key and the self-reconciliation summary does not list it. -/
theorem empty_string_key_excluded_spec_witness :
    lookupTotal (aggregate_quantities
      [mkTestRow (some "SKU-001") (some "Warehouse A") (some 10)] emptyStringKeyFn) ""
      = none ∧
    "" ∉ (reconcileWith [mkTestRow (some "SKU-001") (some "Warehouse A") (some 10)]
      [mkTestRow (some "SKU-001") (some "Warehouse A") (some 10)]
      emptyStringKeyFn).in_both_unchanged := by
  constructor
  · exact (empty_string_key_excluded_spec.1
      [mkTestRow (some "SKU-001") (some "Warehouse A") (some 10)] emptyStringKeyFn).2.2.1
  · exact (empty_string_key_excluded_spec.2
      [mkTestRow (some "SKU-001") (some "Warehouse A") (some 10)]
      [mkTestRow (some "SKU-001") (some "Warehouse A") (some 10)] emptyStringKeyFn).2.1

/-- C3: every optional field of a canonical record built by the row converter is
`None` only if the record's issue list contains an issue whose `field` names that
canonical field — no field is ever silently empty. -/
theorem to_row_no_silent_none_spec (raw_row : List (String × Option String))
    (line_number : Nat) (source_file : String) (schema : SchemaDefinition) :
    ((_to_row raw_row line_number source_file schema).sku = none →
       ∃ i ∈ (_to_row raw_row line_number source_file schema).issues,
         i.field = some "sku") ∧
    ((_to_row raw_row line_number source_file schema).name = none →
       ∃ i ∈ (_to_row raw_row line_number source_file schema).issues,
         i.field = some "name") ∧
    ((_to_row raw_row line_number source_file schema).quantity = none →
       ∃ i ∈ (_to_row raw_row line_number source_file schema).issues,
         i.field = some "quantity") ∧
    ((_to_row raw_row line_number source_file schema).location = none →
       ∃ i ∈ (_to_row raw_row line_number source_file schema).issues,
         i.field = some "location") ∧
    ((_to_row raw_row line_number source_file schema).counted_on = none →
       ∃ i ∈ (_to_row raw_row line_number source_file schema).issues,
         i.field = some "counted_on") := by
  refine ⟨?_, ?_, ?_, ?_, ?_⟩
  · intro h
    simp only [_to_row] at h
    obtain ⟨i, hi, hf⟩ := normalize_sku_none_issue _ h
    refine ⟨i, ?_, hf⟩
    simp only [_to_row, List.mem_append]
    exact Or.inl (Or.inl (Or.inl (Or.inl hi)))
  · intro h
    simp only [_to_row] at h
    obtain ⟨i, hi, hf⟩ := normalize_text_none_issue _ "name" h
    refine ⟨i, ?_, hf⟩
    simp only [_to_row, List.mem_append]
    exact Or.inl (Or.inl (Or.inl (Or.inr hi)))
  · intro h
    simp only [_to_row] at h
    obtain ⟨i, hi, hf⟩ := parse_quantity_none_issue _ h
    refine ⟨i, ?_, hf⟩
    simp only [_to_row, List.mem_append]
    exact Or.inl (Or.inl (Or.inr hi))
  · intro h
    simp only [_to_row] at h
    obtain ⟨i, hi, hf⟩ := normalize_text_none_issue _ "location" h
    refine ⟨i, ?_, hf⟩
    simp only [_to_row, List.mem_append]
    exact Or.inl (Or.inr hi)
  · intro h
    simp only [_to_row] at h
    obtain ⟨i, hi, hf⟩ := parse_inventory_date_none_issue _ h
    refine ⟨i, ?_, hf⟩
    simp only [_to_row, List.mem_append]
    exact Or.inr hi

/-- C3 witness: a non-blank v1 row with a blank SKU cell yields a record whose `sku`
is `None` and whose issues include one attributed to the `sku` field. -/
theorem to_row_no_silent_none_spec_witness :
    ∃ i ∈ (_to_row (dictRead schema_v1.fields
        ["", "Widget", "5", "Warehouse A", "2024-01-15"]) 2 "t.csv" schema_v1).issues,
      i.field = some "sku" :=
  (to_row_no_silent_none_spec
    (dictRead schema_v1.fields ["", "Widget", "5", "Warehouse A", "2024-01-15"])
    2 "t.csv" schema_v1).1 (by decide)

/-- C6: for a non-empty trimmed input, SKU normalization always keeps the uppercased
whitespace-stripped candidate (never `None`): unchanged with no format issue when it
already matches `SKU-` plus three digits and equals the input, with
`sku_format_normalized` when casing/spacing was fixed or a missing hyphen inserted,
and as-is with `invalid_sku_format` otherwise. -/
theorem normalize_sku_spec (v : String) (h1 : pyStrip v = v) (h2 : v ≠ "") :
    (normalize_sku (some v)).1.isSome = true ∧
    (_sku_standard_match (skuCandidate v) = true →
       normalize_sku (some v) =
         (some (skuCandidate v),
          if skuCandidate v = v then [] else [skuCasingIssue])) ∧
    (_sku_standard_match (skuCandidate v) = false →
     _sku_no_hyphen_match (skuCandidate v) = true →
       normalize_sku (some v) =
         (some (String.mk (['S', 'K', 'U', '-'] ++ (skuCandidate v).data.drop 3)),
          [skuHyphenIssue])) ∧
    (_sku_standard_match (skuCandidate v) = false →
     _sku_no_hyphen_match (skuCandidate v) = false →
       normalize_sku (some v) = (some (skuCandidate v), [invalidSkuIssue v])) := by
  refine ⟨?_, ?_, ?_, ?_⟩
  · by_cases hs : _sku_standard_match (skuCandidate v)
    · by_cases hc : skuCandidate v = v
      · have hs2 : _sku_standard_match v = true := hc ▸ hs
        simp [normalize_sku, normalize_text_trimmed v "sku" h1 h2, hs2, hc]
      · simp [normalize_sku, normalize_text_trimmed v "sku" h1 h2, hs, hc]
    · by_cases hn : _sku_no_hyphen_match (skuCandidate v) <;>
        simp [normalize_sku, normalize_text_trimmed v "sku" h1 h2, hs, hn]
  · intro hs
    by_cases hc : skuCandidate v = v
    · have hs2 : _sku_standard_match v = true := hc ▸ hs
      simp [normalize_sku, normalize_text_trimmed v "sku" h1 h2, hs2, hc]
    · simp [normalize_sku, normalize_text_trimmed v "sku" h1 h2, hs, hc]
  · intro hs hn
    simp [normalize_sku, normalize_text_trimmed v "sku" h1 h2, hs, hn]
  · intro hs hn
    simp [normalize_sku, normalize_text_trimmed v "sku" h1 h2, hs, hn]

/-- C6 witness: `SKU-001` is accepted unchanged, `sku-008` is case-fixed with
`sku_format_normalized`, `SKU005` gains the hyphen with `sku_format_normalized`,
and `bad-sku` is kept as `BAD-SKU` with `invalid_sku_format`. -/
theorem normalize_sku_spec_witness :
    normalize_sku (some "SKU-001") = (some "SKU-001", []) ∧
    normalize_sku (some "sku-008") = (some "SKU-008", [skuCasingIssue]) ∧
    normalize_sku (some "SKU005") = (some "SKU-005", [skuHyphenIssue]) ∧
    normalize_sku (some "bad-sku") = (some "BAD-SKU", [invalidSkuIssue "bad-sku"]) := by
  refine ⟨?_, ?_, ?_, ?_⟩
  · have h := (normalize_sku_spec "SKU-001" (by decide) (by decide)).2.1 (by decide)
    simpa using h
  · have h := (normalize_sku_spec "sku-008" (by decide) (by decide)).2.1 (by decide)
    simpa using h
  · have h := (normalize_sku_spec "SKU005" (by decide) (by decide)).2.2.1
      (by decide) (by decide)
    simpa using h
  · have h := (normalize_sku_spec "bad-sku" (by decide) (by decide)).2.2.2
      (by decide) (by decide)
    simpa using h

/-- C5: quantity parsing returns `(None, [invalid_quantity])` on non-numeric text and
`(None, [non_integral_quantity])` on a non-zero fractional part; a whole number
written with a decimal point (`"80.00"`) is accepted as the same integer as its plain
form (`"80"`) with `decimal_quantity_format` emitted only for the decimal-formatted
form; negative integers are accepted with `negative_quantity` emitted. -/
theorem parse_quantity_spec :
    (∀ v : String, pyStrip v = v → v ≠ "" → readDecimal v = none →
       parse_quantity (some v) = (none, [invalidQuantityIssue v])) ∧
    (∀ (v : String) (m sc : Int), pyStrip v = v → v ≠ "" →
       readDecimal v = some (m, sc) → isIntegralDec m sc = false →
       parse_quantity (some v) = (none, [nonIntegralQuantityIssue v])) ∧
    (parse_quantity (some "80.00") = (some 80, [decimalQuantityFormatIssue "80.00"]) ∧
     parse_quantity (some "80") = (some 80, [])) ∧
    (∀ v : String, containsChar v '.' = false →
       ∀ i ∈ (parse_quantity (some v)).2, i.code ≠ "decimal_quantity_format") ∧
    (∀ (v : String) (m sc : Int), pyStrip v = v → v ≠ "" →
       readDecimal v = some (m, sc) → isIntegralDec m sc = true →
       decToInt m sc < 0 →
       parse_quantity (some v) = (some (decToInt m sc),
         (if containsChar v '.' = true then [decimalQuantityFormatIssue v] else [])
           ++ [negativeQuantityIssue (decToInt m sc)])) := by
  refine ⟨?_, ?_, ⟨rfl, rfl⟩, ?_, ?_⟩
  · intro v h1 h2 hrd
    simp [parse_quantity, normalize_text_trimmed v "quantity" h1 h2, hrd]
  · intro v m sc h1 h2 hrd hint
    simp [parse_quantity, normalize_text_trimmed v "quantity" h1 h2, hrd, hint]
  · intro v hdot i hi
    unfold parse_quantity at hi
    cases hnt : normalize_text (some v) "quantity" with
    | mk fst issues =>
      rw [hnt] at hi
      cases fst with
      | none =>
        have hi' : i ∈ (normalize_text (some v) "quantity").2 := by
          rw [hnt]
          exact hi
        rcases normalize_text_codes (some v) "quantity" i hi' with hc | hc <;>
          (rw [hc]; decide)
      | some cleaned =>
        dsimp only at hi
        have hcl : cleaned = pyStrip v :=
          normalize_text_some_eq v "quantity" cleaned (by rw [hnt])
        have hdc : containsChar cleaned '.' = false := by
          rw [hcl]
          exact containsChar_pyStrip_false v '.' hdot
        have hcode : ∀ j, j ∈ issues → j.code ≠ "decimal_quantity_format" := by
          intro j hj
          have hj' : j ∈ (normalize_text (some v) "quantity").2 := by
            rw [hnt]
            exact hj
          rcases normalize_text_codes (some v) "quantity" j hj' with hc | hc <;>
            (rw [hc]; decide)
        cases hrd : readDecimal cleaned with
        | none =>
          rw [hrd] at hi
          dsimp only at hi
          rcases List.mem_append.mp hi with hl | hr
          · exact hcode i hl
          · rw [List.mem_singleton] at hr
            rw [hr]
            simp [invalidQuantityIssue]
        | some p =>
          obtain ⟨m, sc⟩ := p
          rw [hrd] at hi
          by_cases hint : isIntegralDec m sc
          · by_cases hneg : decToInt m sc < 0
            · simp only [hint, hdc, hneg, Bool.not_true, Bool.false_eq_true, if_false,
                if_true] at hi
              rcases List.mem_append.mp hi with hl | hr
              · exact hcode i hl
              · rw [List.mem_singleton] at hr
                rw [hr]
                simp [negativeQuantityIssue]
            · simp only [hint, hdc, hneg, Bool.not_true, Bool.false_eq_true, if_false,
                if_true] at hi
              exact hcode i hi
          · simp only [Bool.not_eq_true] at hint
            simp only [hint, Bool.not_false, if_true] at hi
            rcases List.mem_append.mp hi with hl | hr
            · exact hcode i hl
            · rw [List.mem_singleton] at hr
              rw [hr]
              simp [nonIntegralQuantityIssue]
  · intro v m sc h1 h2 hrd hint hneg
    by_cases hdot : containsChar v '.' <;>
      simp [parse_quantity, normalize_text_trimmed v "quantity" h1 h2, hrd, hint,
        hneg, hdot]

/-- C5 witness: the theorem applied at `"abc"` (non-numeric), `"1.5"` (non-integral),
`"-3"` (negative), and `"7"` (no decimal point, so no decimal-format issue). -/
theorem parse_quantity_spec_witness :
    parse_quantity (some "abc") = (none, [invalidQuantityIssue "abc"]) ∧
    parse_quantity (some "1.5") = (none, [nonIntegralQuantityIssue "1.5"]) ∧
    parse_quantity (some "-3") = (some (-3), [negativeQuantityIssue (-3)]) ∧
    (∀ i ∈ (parse_quantity (some "7")).2, i.code ≠ "decimal_quantity_format") := by
  refine ⟨?_, ?_, ?_, ?_⟩
  · exact parse_quantity_spec.1 "abc" (by decide) (by decide) (by decide)
  · exact parse_quantity_spec.2.1 "1.5" 15 1 (by decide) (by decide) (by decide)
      (by decide)
  · have h := parse_quantity_spec.2.2.2.2 "-3" (-3) 0 (by decide) (by decide)
      (by decide) (by decide) (by decide)
    simpa using h
  · exact parse_quantity_spec.2.2.2.1 "7" (by decide)
